import Mathlib

/-!
Shallow embedding of the EulerSwap substreams package
(`substreams/ethereum-eulerswap/src/modules.rs` and
`substreams/ethereum-eulerswap/src/pool_factories.rs`).

Addresses and raw byte strings are modelled as `List Nat` (one entry per
byte); machine integers decoded from events are modelled as `Nat` (they are
unsigned in the source) and signed deltas as `Int`.  Rust operations that can
panic (string slicing out of range, `unwrap`, `copy_from_slice` on a slice of
the wrong length) are modelled with `Option`, `none` standing for the abort.
-/

namespace EulerSwap

/-! ### Address codec (`format_pool_id`, `store_address`, `decode_address`) -/

/-- Lowercase hex digit for a nibble, as produced by `hex::encode`. -/
def hexChar (n : Nat) : Char :=
  if n < 10 then Char.ofNat (Char.toNat '0' + n)
  else Char.ofNat (Char.toNat 'a' + (n - 10))

/-- Rust `hex::encode`: each byte becomes two lowercase hex digits. -/
def hexEncode (bs : List Nat) : String :=
  String.mk (bs.foldr (fun b acc => hexChar (b / 16 % 16) :: hexChar (b % 16) :: acc) [])

/-- Function `format_pool_id` (also `format_component_id`): `"0x"` followed by lowercase hex. -/
def format_pool_id (address : List Nat) : String :=
  "0x" ++ hexEncode address

/-- Function `store_address` simply forwards to `format_pool_id`. -/
def store_address (address : List Nat) : String :=
  format_pool_id address

/-- Value of one hex digit character, as accepted by `hex::decode`. -/
def hexDigitVal (c : Char) : Option Nat :=
  if '0' ≤ c ∧ c ≤ '9' then some (Char.toNat c - Char.toNat '0')
  else if 'a' ≤ c ∧ c ≤ 'f' then some (Char.toNat c - Char.toNat 'a' + 10)
  else if 'A' ≤ c ∧ c ≤ 'F' then some (Char.toNat c - Char.toNat 'A' + 10)
  else none

/-- Rust `hex::decode`: fails on odd length or on a non-hex character. -/
def hexDecode : List Char → Option (List Nat)
  | [] => some []
  | [_] => none
  | c1 :: c2 :: rest =>
    match hexDigitVal c1, hexDigitVal c2, hexDecode rest with
    | some h, some l, some r => some ((16 * h + l) :: r)
    | _, _, _ => none

/-- Function `decode_address`: skips the first two characters (the `"0x"` marker) with
`&address_str[2..]` — a slice that panics when the string is shorter than two
bytes (modelled by `none`) — then hex-decodes, recovering a decode failure
with `unwrap_or_default` (the empty byte list). -/
def decode_address (address_str : String) : Option (List Nat) :=
  if address_str.length < 2 then
    none
  else
    some ((hexDecode (address_str.data.drop 2)).getD [])

/-! ### Store keys -/

def pool_key (pool_id : String) : String := "pool:" ++ pool_id

def pool_asset_key (pool_id : String) (is_asset0 : Bool) : String :=
  if is_asset0 then "pool:" ++ pool_id ++ ":asset0" else "pool:" ++ pool_id ++ ":asset1"

def pool_vault_key (pool_id : String) (is_vault0 : Bool) : String :=
  if is_vault0 then "pool:" ++ pool_id ++ ":vault0" else "pool:" ++ pool_id ++ ":vault1"

def vault_asset_key (vault_id : String) : String := "vault:" ++ vault_id ++ ":asset"

def token_key (token_addr : String) : String := "token:" ++ token_addr

def vault_key (vault_addr : String) : String := "vault:" ++ vault_addr

/-! ### The registry store

`StoreSetString` / `StoreGetString`: an append-only list of `set` writes;
`get_last` returns the value of the most recent write to the key. -/

abbrev Store := List (String × String)

def getLast (store : Store) (key : String) : Option String :=
  (store.reverse.find? (fun p => p.1 = key)).map Prod.snd

/-! ### Vault cash slot extraction (`get_storage_key_for_vault_cash`,
`add_change_if_accounted`) -/

/-- Slot 2, as a 32-byte big-endian key: 31 zero bytes then `2`. -/
def get_storage_key_for_vault_cash : List Nat :=
  List.replicate 31 0 ++ [2]

/-- One raw storage write as delivered by the block input. -/
structure StorageChange where
  address : List Nat
  key : List Nat
  old_value : List Nat
  new_value : List Nat
  ordinal : Nat
  deriving Repr, DecidableEq

/-- Candidate cash value held for one `(vault, token)` pair. -/
structure VaultBalance where
  ordinal : Nat
  value : List Nat
  deriving Repr, DecidableEq

/-- The slice-and-pad at the heart of `add_change_if_accounted`:
`cash_value[18..].copy_from_slice(&new_value[12..26])` builds a 32-byte value
whose first 18 bytes are zero and whose last 14 bytes are bytes 12..26 of the
new value.  The Rust slice `new_value[12..26]` panics when `new_value` has
fewer than 26 bytes (modelled by `none`). -/
def extractCash (new_value : List Nat) : Option (List Nat) :=
  if 26 ≤ new_value.length then
    some (List.replicate 18 0 ++ (new_value.drop 12).take 14)
  else
    none

/-- Function `add_change_if_accounted` for one `(vault, token)` pair: the state is the
entry of the nested hash map for that pair (`Option VaultBalance`), the outer
`Option` models the panic of the slice copy.  A write at another slot leaves
the state untouched; a first write at the cash slot inserts the extracted
value; a later write replaces the held candidate only when its ordinal is
strictly greater and its extracted value differs. -/
def add_change_if_accounted (state : Option VaultBalance) (change : StorageChange) :
    Option (Option VaultBalance) :=
  if change.key = get_storage_key_for_vault_cash then
    match extractCash change.new_value with
    | none => none
    | some cash_value =>
      match state with
      | none => some (some ⟨change.ordinal, cash_value⟩)
      | some v =>
        if v.ordinal < change.ordinal ∧ v.value ≠ cash_value then
          some (some ⟨change.ordinal, cash_value⟩)
        else
          some (some v)
  else
    some state

/-- Folding `add_change_if_accounted` over the storage writes of one
transaction that target one `(vault, token)` pair, in delivery order. -/
def processCashWrites (state : Option VaultBalance) :
    List StorageChange → Option (Option VaultBalance)
  | [] => some state
  | c :: rest =>
    match add_change_if_accounted state c with
    | none => none
    | some state' => processCashWrites state' rest

/-! ### Protocol constants (`modules.rs` top, `pool_factories.rs` match arms) -/

def EVC_ADDRESS : List Nat :=
  [0x0C, 0x9a, 0x3d, 0xd6, 0xb8, 0xF2, 0x85, 0x29, 0xd7, 0x2d,
   0x7f, 0x9c, 0xE9, 0x18, 0xD4, 0x93, 0x51, 0x9E, 0xE3, 0x83]

def EULERSWAP_PERIPHERY : List Nat :=
  [0x4f, 0xE0, 0x54, 0x7e, 0x7B, 0xe0, 0xe9, 0xa9, 0xcE, 0xD3,
   0xaC, 0x94, 0x8B, 0x83, 0x14, 0x69, 0x96, 0xf8, 0x99, 0xaE]

def EULERSWAP_IMPLEMENTATION : List Nat :=
  [0x27, 0x0e, 0x7d, 0x14, 0xf3, 0x04, 0xc0, 0xdf, 0x91, 0xe5,
   0x09, 0x96, 0x07, 0x25, 0x25, 0xb2, 0x49, 0x78, 0xe1, 0x7f]

def EVK_EVAULT_IMPL : List Nat :=
  [0x8f, 0xf1, 0xc8, 0x14, 0x71, 0x90, 0x96, 0xb6, 0x1a, 0xbf,
   0x00, 0xbb, 0x46, 0xea, 0xd0, 0xc9, 0xa5, 0x29, 0xdd, 0x7d]

def EVK_VAULT_MODULE_IMPL : List Nat :=
  [0xb4, 0xad, 0x4d, 0x9c, 0x02, 0xc0, 0x1b, 0x01, 0xcf, 0x58,
   0x6c, 0x16, 0xf0, 0x1c, 0x58, 0xc7, 0x3c, 0x7f, 0x01, 0x88]

def EVK_BORROWING_MODULE_IMPL : List Nat :=
  [0x63, 0x91, 0x56, 0xf8, 0xfe, 0xb0, 0xcd, 0x88, 0x20, 0x5e,
   0x48, 0x61, 0xa0, 0x22, 0x4e, 0xc1, 0x69, 0x60, 0x5a, 0xcf]

def EVK_GOVERNANCE_MODULE_IMPL : List Nat :=
  [0xa6, 0x1f, 0x50, 0x16, 0xf2, 0xcd, 0x5c, 0xec, 0x12, 0xd0,
   0x91, 0xf8, 0x71, 0xfc, 0xe1, 0xe1, 0xdf, 0x5f, 0x0b, 0x67]

def EVK_GENERIC_FACTORY : List Nat :=
  [0x29, 0xa5, 0x6a, 0x1b, 0x82, 0x14, 0xd9, 0xcf, 0x7c, 0x55,
   0x61, 0x81, 0x17, 0x50, 0xd5, 0xcb, 0xdb, 0x45, 0xcc, 0x8e]

def PERMIT_2 : List Nat :=
  [0x00, 0x00, 0x00, 0x00, 0x00, 0x22, 0xD4, 0x73, 0x03, 0x0F,
   0x11, 0x6d, 0xDE, 0xE9, 0xF6, 0xB4, 0x3a, 0xC7, 0x8B, 0xA3]

def EULERSWAP_FACTORY : List Nat :=
  [0xF7, 0x55, 0x48, 0xaF, 0x02, 0xf1, 0x92, 0x8C, 0xbE, 0x90,
   0x15, 0x98, 0x5D, 0x4F, 0xcb, 0xf9, 0x6d, 0x72, 0x85, 0x44]

/-! ### Decoded events and calls

The generated ABI decoders (`match_and_decode`) either return a typed value
or signal no match; a decoded log is modelled by an inductive of the typed
events the modules inspect, `other` standing for any log that matches none
of them. -/

/-- The `PoolDeployed` event of the EulerSwap factory. -/
structure PoolDeployedEv where
  pool : List Nat
  vault0 : List Nat
  vault1 : List Nat
  asset0 : List Nat
  asset1 : List Nat
  euler_account : List Nat
  fee_multiplier : Nat
  price_x : Nat
  price_y : Nat
  concentration_x : Nat
  concentration_y : Nat
  reserve0 : Nat
  reserve1 : Nat
  deriving Repr, DecidableEq

/-- The `Swap` event of an EulerSwap pool. -/
structure SwapEv where
  amount0_in : Nat
  amount1_in : Nat
  amount0_out : Nat
  amount1_out : Nat
  deriving Repr, DecidableEq

/-- What a log decodes to, if anything. -/
inductive LogEv where
  | poolDeployed (ev : PoolDeployedEv)
  | poolConfig (pool : List Nat) (initial0 initial1 : Nat)
  | swap (ev : SwapEv)
  | proxyCreated (proxy implementation : List Nat) (upgradeable : Bool)
      (trailing_data : List Nat)
  | other
  deriving Repr, DecidableEq

/-- One log of the block, with its position data. -/
structure BLog where
  txIndex : Nat
  ordinal : Nat
  address : List Nat
  ev : LogEv
  deriving Repr, DecidableEq

/-- One call, as inspected by `maybe_create_component`: its target address and
whether it decodes as the factory `DeployPool` invocation. -/
structure Call where
  address : List Nat
  deployPoolDecodes : Bool
  deriving Repr, DecidableEq

/-! ### Protocol components (`pool_factories.rs`) -/

/-- A static attribute value.  The source serializes values to byte vectors
(`json_serialize_bigint_list`, big-endian ints, raw bytes); the embedding
keeps the typed payload instead of the serialized bytes. -/
inductive AttrValue where
  | bytes (bs : List Nat)
  | text (s : String)
  | bigintList (xs : List Nat)
  | bigint (x : Int)
  | u32be (n : Nat)
  deriving Repr, DecidableEq

inductive FinancialType where
  | swapKind
  | lendKind
  deriving Repr, DecidableEq

structure ProtocolType where
  name : String
  financial_type : FinancialType
  deriving Repr, DecidableEq

structure ProtocolComponent where
  id : String
  tokens : List (List Nat)
  contracts : List (List Nat)
  static_att : List (String × AttrValue)
  protocol_type : Option ProtocolType
  deriving Repr, DecidableEq

/-- Function `maybe_create_component`: dispatch on the call's target address.
At the EulerSwap factory address both the `DeployPool` call and the
`PoolDeployed` event must decode; at the EVK generic factory address only the
`ProxyCreated` event is decoded; any other target yields nothing. -/
def maybe_create_component (call : Call) (log : BLog) : Option ProtocolComponent :=
  if call.address = EULERSWAP_FACTORY then
    if call.deployPoolDecodes then
      match log.ev with
      | .poolDeployed ev =>
        some
          { id := format_pool_id ev.pool
            tokens := [ev.asset0, ev.asset1]
            contracts := [ev.pool, ev.vault0, ev.vault1, EVC_ADDRESS]
            static_att :=
              [("pool_type", .text "EulerSwap"),
               ("euler_account", .bytes ev.euler_account),
               ("fee_multiplier", .bigint (ev.fee_multiplier : Int)),
               ("reserves", .bigintList [ev.reserve0, ev.reserve1]),
               ("prices", .bigintList [ev.price_x, ev.price_y]),
               ("concentrations", .bigintList [ev.concentration_x, ev.concentration_y]),
               ("stateless_contract_addr_0", .bytes EVK_EVAULT_IMPL),
               ("stateless_contract_addr_1", .bytes EVK_VAULT_MODULE_IMPL),
               ("stateless_contract_addr_2", .bytes EVK_BORROWING_MODULE_IMPL),
               ("stateless_contract_addr_3", .bytes EVK_GOVERNANCE_MODULE_IMPL),
               ("stateless_contract_addr_4", .bytes EVK_GENERIC_FACTORY),
               ("manual_updates", .bytes [1])]
            protocol_type := some ⟨"eulerswap", .swapKind⟩ }
      | _ => none
    else none
  else if call.address = EVK_GENERIC_FACTORY then
    match log.ev with
    | .proxyCreated proxy implementation upgradeable trailing_data =>
      some
        { id := format_pool_id proxy
          tokens := []
          contracts := [proxy, implementation, EVC_ADDRESS]
          static_att :=
            [("vault_type", .text "EulerLending"),
             ("upgradeable", .bytes (if upgradeable then [1] else [0])),
             ("trailing_data_length", .u32be trailing_data.length),
             ("stateless_contract_addr_0", .bytes EVK_EVAULT_IMPL),
             ("stateless_contract_addr_1", .bytes EVK_VAULT_MODULE_IMPL),
             ("stateless_contract_addr_2", .bytes EVK_BORROWING_MODULE_IMPL),
             ("stateless_contract_addr_3", .bytes EVK_GOVERNANCE_MODULE_IMPL),
             ("stateless_contract_addr_4", .bytes EVK_GENERIC_FACTORY),
             ("manual_updates", .bytes [1])]
          protocol_type := some ⟨"eulerswap", .lendKind⟩ }
    | _ => none
  else none

/-! ### Registry store write path (`store_protocol_components`) -/

/-- The eleven `store.set` writes issued for one component, in program order.
`pc.tokens[0]`, `pc.tokens[1]`, `pc.contracts[1]`, `pc.contracts[2]` are Rust
index expressions that panic when the lists are too short (modelled by
`none`). -/
def componentWrites (pc : ProtocolComponent) : Option (List (String × String)) :=
  match pc.tokens, pc.contracts with
  | t0 :: t1 :: _, _ :: v0 :: v1 :: _ =>
    let pool_id := pc.id
    let token0_addr := store_address t0
    let token1_addr := store_address t1
    let vault0_addr := store_address v0
    let vault1_addr := store_address v1
    some
      [(pool_key pool_id, pool_id),
       (pool_asset_key pool_id true, token0_addr),
       (token_key token0_addr, token0_addr),
       (pool_asset_key pool_id false, token1_addr),
       (token_key token1_addr, token1_addr),
       (pool_vault_key pool_id true, vault0_addr),
       (vault_key vault0_addr, vault0_addr),
       (vault_asset_key vault0_addr, token0_addr),
       (pool_vault_key pool_id false, vault1_addr),
       (vault_key vault1_addr, vault1_addr),
       (vault_asset_key vault1_addr, token1_addr)]
  | _, _ => none

/-- Handler `store_protocol_components` over every component of every transaction of
the block, in order; a panicking index aborts the handler. -/
def store_protocol_components : List ProtocolComponent → Option Store
  | [] => some []
  | pc :: rest =>
    match componentWrites pc, store_protocol_components rest with
    | some ws, some rs => some (ws ++ rs)
    | _, _ => none

/-! ### Balance deltas (`map_relative_component_balance`) -/

/-- One signed balance delta.  The source serializes the delta as signed
big-endian bytes; the embedding keeps the integer. -/
structure BalanceDelta where
  ord : Nat
  txIndex : Nat
  token : List Nat
  component_id : String
  delta : Int
  deriving Repr, DecidableEq

/-- Whether a log decodes as a `PoolConfig` event whose `pool` field equals
the given pool address (the predicate of the `find` in the deploy branch). -/
def isConfigFor (pool : List Nat) (l : BLog) : Bool :=
  match l.ev with
  | .poolConfig p _ _ => p = pool
  | _ => false

/-- The `PoolDeployed` branch of `map_relative_component_balance` for one log:
when the deployed pool is in the store, the matching `PoolConfig` event is
searched for among ALL logs of the block (`block.logs().find(..)`), and its
absence panics (`.unwrap()`, modelled by `none`); the two initial reserves
are emitted as positive deltas, zero reserves emitting nothing. -/
def deployDeltas (store : Store) (blockLogs : List BLog) (log : BLog) :
    Option (List BalanceDelta) :=
  match log.ev with
  | .poolDeployed ev =>
    let pool_id := format_pool_id ev.pool
    if (getLast store (pool_key pool_id)).isSome then
      match blockLogs.find? (isConfigFor ev.pool) with
      | none => none
      | some cfg =>
        match cfg.ev with
        | .poolConfig _ initial0 initial1 =>
          some
            ((if 0 < initial0 then
                [⟨log.ordinal, log.txIndex, ev.asset0, pool_id, (initial0 : Int)⟩]
              else []) ++
             (if 0 < initial1 then
                [⟨log.ordinal, log.txIndex, ev.asset1, pool_id, (initial1 : Int)⟩]
              else []))
        | _ => some []
    else some []
  | _ => some []

/-- The `Swap` branch of `map_relative_component_balance` for one log: the
emitter must be a known pool and both asset keys must resolve; up to four
deltas are emitted, inflows positive and outflows negated, zero amounts
emitting nothing.  The stored asset strings run through `decode_address`,
whose panic propagates (`none`). -/
def swapDeltas (store : Store) (log : BLog) : Option (List BalanceDelta) :=
  match log.ev with
  | .swap ev =>
    let pool_id := format_pool_id log.address
    if (getLast store (pool_key pool_id)).isSome then
      match getLast store (pool_asset_key pool_id true) with
      | none => some []
      | some asset0 =>
        match getLast store (pool_asset_key pool_id false) with
        | none => some []
        | some asset1 =>
          match decode_address asset0, decode_address asset1 with
          | some asset0_bytes, some asset1_bytes =>
            some
              ((if 0 < ev.amount0_in then
                  [⟨log.ordinal, log.txIndex, asset0_bytes, pool_id, (ev.amount0_in : Int)⟩]
                else []) ++
               (if 0 < ev.amount1_in then
                  [⟨log.ordinal, log.txIndex, asset1_bytes, pool_id, (ev.amount1_in : Int)⟩]
                else []) ++
               (if 0 < ev.amount0_out then
                  [⟨log.ordinal, log.txIndex, asset0_bytes, pool_id, -(ev.amount0_out : Int)⟩]
                else []) ++
               (if 0 < ev.amount1_out then
                  [⟨log.ordinal, log.txIndex, asset1_bytes, pool_id, -(ev.amount1_out : Int)⟩]
                else []))
          | _, _ => none
    else some []
  | _ => some []

/-- Handler `map_relative_component_balance`, processing the given suffix of the
block's logs: each log contributes its deploy-branch deltas then its
swap-branch deltas, and any panic aborts the whole handler (a block-level
hard failure). -/
def mapRelativeAux (store : Store) (blockLogs : List BLog) :
    List BLog → Option (List BalanceDelta)
  | [] => some []
  | log :: rest =>
    match deployDeltas store blockLogs log, swapDeltas store log,
        mapRelativeAux store blockLogs rest with
    | some d, some s, some r => some (d ++ s ++ r)
    | _, _, _ => none

/-- Handler `map_relative_component_balance` over the whole block. -/
def map_relative_component_balance (store : Store) (blockLogs : List BLog) :
    Option (List BalanceDelta) :=
  mapRelativeAux store blockLogs blockLogs

/-! ### Change-set builder (`map_protocol_changes`)

`TransactionChangesBuilder` comes from the `tycho-substreams` crate, outside
this package's sources; its state is modelled as the lists of changes the
`modules.rs` call sites feed it. -/

structure TxBuilder where
  txIndex : Nat
  protocolComponents : List ProtocolComponent
  entityChanges : List (String × List (String × AttrValue))
  balanceChanges : List (String × List Nat × Nat)
  contractChanges : List (List Nat)
  updatedComponents : List String
  deriving Repr, DecidableEq

/-- One finalized per-transaction change-set. -/
structure TransactionChanges where
  txIndex : Nat
  protocolComponents : List ProtocolComponent
  entityChanges : List (String × List (String × AttrValue))
  balanceChanges : List (String × List Nat × Nat)
  contractChanges : List (List Nat)
  updatedComponents : List String
  deriving Repr, DecidableEq

/-- Whether the builder holds any change at all. -/
def hasContent (b : TxBuilder) : Bool :=
  !b.protocolComponents.isEmpty || !b.entityChanges.isEmpty ||
  !b.balanceChanges.isEmpty || !b.contractChanges.isEmpty ||
  !b.updatedComponents.isEmpty

/-- Modelled from the spec: `TransactionChangesBuilder::build` lives in the
`tycho-substreams` crate of this repository, outside the files under `src/`;
per the spec, a change-set is emitted only for "a transaction that has any
content" and "transactions with no related activity emit nothing", so `build`
returns the finalized change-set when the builder has content and nothing
otherwise. -/
def buildTx (b : TxBuilder) : Option TransactionChanges :=
  if hasContent b then
    some ⟨b.txIndex, b.protocolComponents, b.entityChanges, b.balanceChanges,
      b.contractChanges, b.updatedComponents⟩
  else none

/-- The reconciliation step of `map_protocol_changes` for one changed contract
address: an address registered as a vault is left alone (the
`get_last(vault_key(..)).is_none()` guard fails); otherwise the address itself
is read as a pool id and, when the pool key resolves, that component id is
marked updated. -/
def reconcileAddress (components_store : Store) (updated : List String)
    (address : List Nat) : List String :=
  if (getLast components_store (vault_key (store_address address))).isSome then
    updated
  else
    match getLast components_store (pool_key (format_pool_id address)) with
    | some component_id => updated ++ [component_id]
    | none => updated

/-- The component ids marked updated by the reconciliation pass of
`map_protocol_changes`, given the changed-contract addresses of one
transaction's builder. -/
def reconcileUpdated (components_store : Store) (addresses : List (List Nat)) :
    List String :=
  addresses.foldl (reconcileAddress components_store) []

/-- The final emission of `map_protocol_changes`: drain the per-transaction
builders, sort them ascending by transaction index, and keep the built
change-sets (`filter_map(|(_, builder)| builder.build())`). -/
def map_protocol_changes_output (builders : List TxBuilder) :
    List TransactionChanges :=
  (List.insertionSort (fun a b => a.txIndex ≤ b.txIndex) builders).filterMap buildTx

instance : IsTotal TxBuilder (fun a b => a.txIndex ≤ b.txIndex) :=
  ⟨fun a b => Nat.le_total a.txIndex b.txIndex⟩

instance : IsTrans TxBuilder (fun a b => a.txIndex ≤ b.txIndex) :=
  ⟨fun _ _ _ => Nat.le_trans⟩

/-! ### Concrete fixtures

A deployed pool `exPool` with tokens `exT0`, `exT1` and vaults `exV0`, `exV1`,
its registry-store image, and the block logs of a deployment split across two
transactions.  Used to instantiate the theorems below on closed inputs. -/

def exPool : List Nat := List.replicate 20 1
def exT0 : List Nat := List.replicate 20 2
def exT1 : List Nat := List.replicate 20 3
def exV0 : List Nat := List.replicate 20 4
def exV1 : List Nat := List.replicate 20 5

def exComponent : ProtocolComponent :=
  { id := format_pool_id exPool
    tokens := [exT0, exT1]
    contracts := [exPool, exV0, exV1, EVC_ADDRESS]
    static_att := []
    protocol_type := none }

def exStore : Store := (componentWrites exComponent).getD []

def exDeployEv : PoolDeployedEv :=
  { pool := exPool, vault0 := exV0, vault1 := exV1, asset0 := exT0, asset1 := exT1
    euler_account := List.replicate 20 6, fee_multiplier := 0
    price_x := 0, price_y := 0, concentration_x := 0, concentration_y := 0
    reserve0 := 100, reserve1 := 0 }

def exDeployLog : BLog :=
  { txIndex := 0, ordinal := 7, address := EULERSWAP_FACTORY, ev := .poolDeployed exDeployEv }

def exConfigLog : BLog :=
  { txIndex := 1, ordinal := 9, address := EULERSWAP_FACTORY, ev := .poolConfig exPool 100 0 }

def exProxyCall : Call := { address := EVK_GENERIC_FACTORY, deployPoolDecodes := false }

def exProxyLog : BLog :=
  { txIndex := 0, ordinal := 1, address := EVK_GENERIC_FACTORY
    ev := .proxyCreated exV0 EVK_EVAULT_IMPL true [] }

def exWrite5 : StorageChange :=
  { address := exV0, key := get_storage_key_for_vault_cash, old_value := []
    new_value := List.replicate 32 1, ordinal := 5 }

def exWrite9 : StorageChange :=
  { address := exV0, key := get_storage_key_for_vault_cash, old_value := []
    new_value := List.replicate 32 9, ordinal := 9 }

end EulerSwap

namespace EulerSwap

/-! ## Claims -/

/-- C6: the claim says `decode_address` returns the decoded bytes or, on
malformed input, an empty byte sequence, and never aborts regardless of the
input string's content or length.  The code slices `&address_str[2..]` before
hex-decoding; on a string shorter than two bytes that slice panics, so the
empty string aborts the handler (first conjunct, `none` = panic) even though
a malformed-but-long-enough input is indeed recovered as the empty byte
sequence (second conjunct). -/
theorem decode_address_aborts_on_short_input :
    decode_address "" = none ∧ decode_address "0xzz" = some [] := by
  decide

/-- Helper: on a cash-slot write with a successfully extracted value and no
held candidate, the extracted value is inserted. -/
theorem add_change_insert (c : StorageChange) (cash : List Nat)
    (hkey : c.key = get_storage_key_for_vault_cash)
    (hcash : extractCash c.new_value = some cash) :
    add_change_if_accounted none c = some (some ⟨c.ordinal, cash⟩) := by
  unfold add_change_if_accounted
  rw [if_pos hkey, hcash]

/-- Helper: on a cash-slot write whose ordinal is not greater or whose
extracted value equals the held candidate, the candidate is kept as is. -/
theorem add_change_keep (v : VaultBalance) (c : StorageChange) (cash : List Nat)
    (hkey : c.key = get_storage_key_for_vault_cash)
    (hcash : extractCash c.new_value = some cash)
    (hcond : ¬(v.ordinal < c.ordinal ∧ v.value ≠ cash)) :
    add_change_if_accounted (some v) c = some (some v) := by
  unfold add_change_if_accounted
  rw [if_pos hkey, hcash]
  exact if_neg hcond

/-- Helper: on a cash-slot write with strictly greater ordinal and a differing
extracted value, the candidate is replaced. -/
theorem add_change_replace (v : VaultBalance) (c : StorageChange) (cash : List Nat)
    (hkey : c.key = get_storage_key_for_vault_cash)
    (hcash : extractCash c.new_value = some cash)
    (hcond : v.ordinal < c.ordinal ∧ v.value ≠ cash) :
    add_change_if_accounted (some v) c = some (some ⟨c.ordinal, cash⟩) := by
  unfold add_change_if_accounted
  rw [if_pos hkey, hcash]
  exact if_pos hcond

/-- Helper: a cash-slot write with at least 26 bytes of new value extracts
successfully. -/
theorem extractCash_of_length (nv : List Nat) (hlen : 26 ≤ nv.length) :
    extractCash nv = some (List.replicate 18 0 ++ (nv.drop 12).take 14) := by
  unfold extractCash
  rw [if_pos hlen]

/-- C10: `add_change_if_accounted` is total on a cash-slot write only when the
write's new value holds at least 26 bytes: at the cash slot it slices bytes
12..26 of the new value, so a shorter value aborts (`none`, index out of
range) rather than skipping the entry, while a value of at least 26 bytes is
processed normally. -/
theorem add_change_requires_26_bytes (state : Option VaultBalance)
    (c : StorageChange) (hkey : c.key = get_storage_key_for_vault_cash) :
    (c.new_value.length < 26 → add_change_if_accounted state c = none) ∧
    (26 ≤ c.new_value.length → (add_change_if_accounted state c).isSome = true) := by
  constructor
  · intro hlen
    unfold add_change_if_accounted extractCash
    rw [if_pos hkey, if_neg (by omega)]
  · intro hlen
    have hcash := extractCash_of_length c.new_value hlen
    cases state with
    | none => rw [add_change_insert c _ hkey hcash]; rfl
    | some v =>
      by_cases hcond : v.ordinal < c.ordinal ∧
          v.value ≠ List.replicate 18 0 ++ (c.new_value.drop 12).take 14
      · rw [add_change_replace v c _ hkey hcash hcond]; rfl
      · rw [add_change_keep v c _ hkey hcash hcond]; rfl

/-- Witness for C10 at concrete writes: a 2-byte new value at the cash slot
aborts, a 32-byte one is processed. -/
theorem add_change_requires_26_bytes_witness :
    add_change_if_accounted none
        ⟨[], get_storage_key_for_vault_cash, [], [0, 1], 3⟩ = none ∧
    (add_change_if_accounted none
        ⟨[], get_storage_key_for_vault_cash, [], List.replicate 32 0, 3⟩).isSome = true :=
  ⟨(add_change_requires_26_bytes none _ rfl).1 (by decide),
   (add_change_requires_26_bytes none _ rfl).2 (by decide)⟩

/-- C2 counterexample: the claim says the snapshot's final 14 bytes equal the
slot's 18th through 32nd bytes.  On the slot `[0, 1, ..., 31]` the code stores
the snapshot whose final 14 bytes are `[12, ..., 25]` — the slot's bytes
12..26 — which differ from the slot's final 14 bytes `[18, ..., 31]`. -/
theorem cash_snapshot_source_bytes_counterexample :
    add_change_if_accounted none
        ⟨exV0, get_storage_key_for_vault_cash, [], List.range 32, 5⟩ =
      some (some ⟨5, List.replicate 18 0 ++
        [12, 13, 14, 15, 16, 17, 18, 19, 20, 21, 22, 23, 24, 25]⟩) ∧
    (List.replicate 18 0 ++
        [12, 13, 14, 15, 16, 17, 18, 19, 20, 21, 22, 23, 24, 25]).drop 18 ≠
      (List.range 32).drop 18 := by
  decide

/-- C2 (amended): for every 32-byte storage-slot new value written at the
vault cash slot, the extraction yields a 32-byte snapshot whose final 14 bytes
equal the slot's bytes 12..26 (the 13th through 26th bytes) and whose leading
18 bytes are zero, regardless of the other bytes in the slot. -/
theorem cash_snapshot_extraction (c : StorageChange)
    (hkey : c.key = get_storage_key_for_vault_cash)
    (hlen : c.new_value.length = 32) :
    add_change_if_accounted none c =
      some (some ⟨c.ordinal, List.replicate 18 0 ++ (c.new_value.drop 12).take 14⟩) ∧
    (List.replicate 18 0 ++ (c.new_value.drop 12).take 14).length = 32 ∧
    (List.replicate 18 0 ++ (c.new_value.drop 12).take 14).take 18 =
      List.replicate 18 0 ∧
    (List.replicate 18 0 ++ (c.new_value.drop 12).take 14).drop 18 =
      (c.new_value.drop 12).take 14 := by
  have h26 : 26 ≤ c.new_value.length := by omega
  have hlen14 : ((c.new_value.drop 12).take 14).length = 14 := by
    simp [List.length_take, List.length_drop, hlen]
  refine ⟨?_, ?_, ?_, ?_⟩
  · exact add_change_insert c _ hkey (extractCash_of_length c.new_value h26)
  · simp [List.length_append, hlen14]
  · simp
  · simp

/-- Witness for C2 (amended) at the slot `[0, 1, ..., 31]`. -/
theorem cash_snapshot_extraction_witness :
    add_change_if_accounted none
        ⟨exV0, get_storage_key_for_vault_cash, [], List.range 32, 5⟩ =
      some (some ⟨5, List.replicate 18 0 ++ ((List.range 32).drop 12).take 14⟩) :=
  (cash_snapshot_extraction _ rfl (by decide)).1

/-- C4: within one `(vault, token)` pair, a cash-slot write whose extracted
value equals the held candidate never updates the stored ordinal or value
(first conjunct); a write with strictly greater ordinal and a differing value
replaces the candidate (second conjunct); and two writes at ordinals 5 and 9
with differing extracted values leave exactly the ordinal-9 snapshot (third
conjunct). -/
theorem vault_cash_last_write_wins :
    (∀ (v : VaultBalance) (c : StorageChange) (cash : List Nat),
        c.key = get_storage_key_for_vault_cash →
        extractCash c.new_value = some cash →
        cash = v.value →
        add_change_if_accounted (some v) c = some (some v)) ∧
    (∀ (v : VaultBalance) (c : StorageChange) (cash : List Nat),
        c.key = get_storage_key_for_vault_cash →
        extractCash c.new_value = some cash →
        v.ordinal < c.ordinal →
        cash ≠ v.value →
        add_change_if_accounted (some v) c = some (some ⟨c.ordinal, cash⟩)) ∧
    (∀ (c5 c9 : StorageChange) (cash5 cash9 : List Nat),
        c5.key = get_storage_key_for_vault_cash →
        c9.key = get_storage_key_for_vault_cash →
        c5.ordinal = 5 →
        c9.ordinal = 9 →
        extractCash c5.new_value = some cash5 →
        extractCash c9.new_value = some cash9 →
        cash5 ≠ cash9 →
        processCashWrites none [c5, c9] = some (some ⟨9, cash9⟩)) := by
  refine ⟨?_, ?_, ?_⟩
  · intro v c cash hkey hcash hval
    exact add_change_keep v c cash hkey hcash (by rintro ⟨-, hne⟩; exact hne hval.symm)
  · intro v c cash hkey hcash hord hne
    exact add_change_replace v c cash hkey hcash ⟨hord, fun h => hne h.symm⟩
  · intro c5 c9 cash5 cash9 hk5 hk9 ho5 ho9 hc5 hc9 hne
    have step1 : add_change_if_accounted none c5 = some (some ⟨c5.ordinal, cash5⟩) :=
      add_change_insert c5 cash5 hk5 hc5
    have step2 : add_change_if_accounted (some ⟨c5.ordinal, cash5⟩) c9 =
        some (some ⟨c9.ordinal, cash9⟩) :=
      add_change_replace ⟨c5.ordinal, cash5⟩ c9 cash9 hk9 hc9
        ⟨by simp only [ho5, ho9]; omega, hne⟩
    simp [processCashWrites, step1, step2, ho9]

/-- Witness for C4 at concrete writes: equal-value non-update, replacement,
and the 5-then-9 scenario on 32-byte slots filled with `1` and `9`. -/
theorem vault_cash_last_write_wins_witness :
    add_change_if_accounted
        (some ⟨2, List.replicate 18 0 ++ List.replicate 14 1⟩) exWrite5 =
      some (some ⟨2, List.replicate 18 0 ++ List.replicate 14 1⟩) ∧
    add_change_if_accounted
        (some ⟨2, List.replicate 32 7⟩) exWrite5 =
      some (some ⟨5, List.replicate 18 0 ++ List.replicate 14 1⟩) ∧
    processCashWrites none [exWrite5, exWrite9] =
      some (some ⟨9, List.replicate 18 0 ++ List.replicate 14 9⟩) :=
  ⟨vault_cash_last_write_wins.1 ⟨2, List.replicate 18 0 ++ List.replicate 14 1⟩
      exWrite5 (List.replicate 18 0 ++ List.replicate 14 1) rfl (by decide) (by decide),
   vault_cash_last_write_wins.2.1 ⟨2, List.replicate 32 7⟩
      exWrite5 (List.replicate 18 0 ++ List.replicate 14 1) rfl (by decide) (by decide)
      (by decide),
   vault_cash_last_write_wins.2.2 exWrite5 exWrite9
      (List.replicate 18 0 ++ List.replicate 14 1)
      (List.replicate 18 0 ++ List.replicate 14 9) rfl rfl rfl rfl
      (by decide) (by decide) (by decide)⟩

/-- C1 counterexample: in the registry image of a stored component, `exV0` is
registered as a vault (first two conjuncts: the vault marker exists and the
pool's `vault0` entry names it), yet a contract-storage change on `exV0`
marks no component at all — the reconciliation pass never resolves a vault
back to its owning pool, contrary to the claim. -/
theorem vault_diff_not_resolved_counterexample :
    (getLast exStore (vault_key (store_address exV0))).isSome = true ∧
    getLast exStore (pool_vault_key (format_pool_id exPool) true) =
      some (store_address exV0) ∧
    reconcileUpdated exStore [exV0] = [] := by
  decide

/-- C1 (amended): in the reconciliation pass, a changed contract address that
is registered as a vault is skipped entirely — it is neither marked itself
nor resolved to its owning pool (the registry holds no vault-to-pool
mapping); a changed address that is not registered as a vault is marked
updated exactly when the address itself resolves as a pool id in the
Registry Store. -/
theorem reconciliation_skips_vaults (store : Store) (updated : List String)
    (a : List Nat) :
    ((getLast store (vault_key (store_address a))).isSome = true →
      reconcileAddress store updated a = updated) ∧
    ((getLast store (vault_key (store_address a))).isSome = false →
      ∀ cid, getLast store (pool_key (format_pool_id a)) = some cid →
        reconcileAddress store updated a = updated ++ [cid]) ∧
    ((getLast store (vault_key (store_address a))).isSome = false →
      getLast store (pool_key (format_pool_id a)) = none →
      reconcileAddress store updated a = updated) := by
  refine ⟨?_, ?_, ?_⟩
  · intro h
    simp [reconcileAddress, h]
  · intro h cid hcid
    simp [reconcileAddress, h, hcid]
  · intro h hcid
    simp [reconcileAddress, h, hcid]

/-- Witness for C1 (amended): on the stored component's registry image, the
vault address is skipped and the pool address is marked. -/
theorem reconciliation_skips_vaults_witness :
    reconcileAddress exStore [] exV0 = [] ∧
    reconcileAddress exStore [] exPool = [] ++ [format_pool_id exPool] :=
  ⟨(reconciliation_skips_vaults exStore [] exV0).1 (by decide),
   (reconciliation_skips_vaults exStore [] exPool).2.1 (by decide)
     (format_pool_id exPool) (by decide)⟩

/-- C5 counterexample: at the EVK generic-factory address a component is
produced from the `ProxyCreated` event alone — here the call does not decode
as any deployment invocation, yet a component is produced, contrary to the
claim that both the call and the event must decode. -/
theorem vault_factory_partial_match_counterexample :
    exProxyCall.deployPoolDecodes = false ∧
    (maybe_create_component exProxyCall exProxyLog).isSome = true := by
  decide

/-- C5 (amended): at the EulerSwap pool-factory address a component is
produced iff both the `DeployPool` call and the `PoolDeployed` event decode;
at the EVK generic-factory address a component is produced iff the
`ProxyCreated` event decodes, the call not being decoded at all; any other
target yields no component and no error. -/
theorem maybe_create_component_decode_conditions (call : Call) (log : BLog) :
    (call.address = EULERSWAP_FACTORY →
      ((maybe_create_component call log).isSome = true ↔
        (call.deployPoolDecodes = true ∧ ∃ ev, log.ev = LogEv.poolDeployed ev))) ∧
    (call.address = EVK_GENERIC_FACTORY →
      ((maybe_create_component call log).isSome = true ↔
        ∃ p i u t, log.ev = LogEv.proxyCreated p i u t)) ∧
    (call.address ≠ EULERSWAP_FACTORY → call.address ≠ EVK_GENERIC_FACTORY →
      maybe_create_component call log = none) := by
  refine ⟨?_, ?_, ?_⟩
  · intro haddr
    cases hde : call.deployPoolDecodes <;> cases hev : log.ev <;>
      simp [maybe_create_component, haddr, hde, hev]
  · intro haddr
    have hne : call.address ≠ EULERSWAP_FACTORY := by rw [haddr]; decide
    have hneq : ¬(EVK_GENERIC_FACTORY = EULERSWAP_FACTORY) := by decide
    cases hev : log.ev <;> simp [maybe_create_component, haddr, hne, hneq, hev]
  · intro h1 h2
    simp [maybe_create_component, h1, h2]

/-- Witness for C5 (amended): a full pool-factory match yields a component,
and a non-factory target yields none. -/
theorem maybe_create_component_decode_conditions_witness :
    (maybe_create_component ⟨EULERSWAP_FACTORY, true⟩ exDeployLog).isSome = true ∧
    maybe_create_component ⟨exT0, false⟩ exDeployLog = none :=
  ⟨((maybe_create_component_decode_conditions ⟨EULERSWAP_FACTORY, true⟩
        exDeployLog).1 rfl).mpr ⟨rfl, exDeployEv, rfl⟩,
   (maybe_create_component_decode_conditions ⟨exT0, false⟩ exDeployLog).2.2
     (by decide) (by decide)⟩

/-- C9: for each component, the registry write path issues exactly the eleven
writes pool, asset0, asset0-reverse, asset1, asset1-reverse, vault0,
vault0-reverse, vault0-asset, vault1, vault1-reverse, vault1-asset, in that
fixed order. -/
theorem store_write_order (pc : ProtocolComponent)
    (t0 t1 : List Nat) (ts : List (List Nat))
    (c0 v0 v1 : List Nat) (cs : List (List Nat))
    (htok : pc.tokens = t0 :: t1 :: ts)
    (hcon : pc.contracts = c0 :: v0 :: v1 :: cs) :
    componentWrites pc = some
      [(pool_key pc.id, pc.id),
       (pool_asset_key pc.id true, store_address t0),
       (token_key (store_address t0), store_address t0),
       (pool_asset_key pc.id false, store_address t1),
       (token_key (store_address t1), store_address t1),
       (pool_vault_key pc.id true, store_address v0),
       (vault_key (store_address v0), store_address v0),
       (vault_asset_key (store_address v0), store_address t0),
       (pool_vault_key pc.id false, store_address v1),
       (vault_key (store_address v1), store_address v1),
       (vault_asset_key (store_address v1), store_address t1)] := by
  simp [componentWrites, htok, hcon]

/-- Witness for C9 on the concrete component. -/
theorem store_write_order_witness :
    componentWrites exComponent = some
      [(pool_key exComponent.id, exComponent.id),
       (pool_asset_key exComponent.id true, store_address exT0),
       (token_key (store_address exT0), store_address exT0),
       (pool_asset_key exComponent.id false, store_address exT1),
       (token_key (store_address exT1), store_address exT1),
       (pool_vault_key exComponent.id true, store_address exV0),
       (vault_key (store_address exV0), store_address exV0),
       (vault_asset_key (store_address exV0), store_address exT0),
       (pool_vault_key exComponent.id false, store_address exV1),
       (vault_key (store_address exV1), store_address exV1),
       (vault_asset_key (store_address exV1), store_address exT1)] :=
  store_write_order exComponent exT0 exT1 [] exPool exV0 exV1 [EVC_ADDRESS] rfl rfl

/-- Helper: a log whose deploy branch panics makes the whole handler fail for
any log list containing it. -/
theorem mapRelativeAux_eq_none (store : Store) (blockLogs : List BLog) (log : BLog)
    (h : deployDeltas store blockLogs log = none) :
    ∀ cur : List BLog, log ∈ cur → mapRelativeAux store blockLogs cur = none := by
  intro cur
  induction cur with
  | nil => intro hmem; cases hmem
  | cons a rest ih =>
    intro hmem
    rcases List.mem_cons.mp hmem with rfl | hmem'
    · simp [mapRelativeAux, h]
    · cases hd : deployDeltas store blockLogs a <;>
        cases hs : swapDeltas store a <;>
          simp [mapRelativeAux, hd, hs, ih hmem']

/-- C3 counterexample: the paired `PoolConfig` event is searched for among
ALL logs of the block, not just the logs of the deployment's transaction.
Here the only matching `PoolConfig` log sits in transaction 1 while the
`PoolDeployed` log sits in transaction 0, yet the extractor succeeds and
pairs them instead of failing hard as the claim requires. -/
theorem poolconfig_same_tx_scope_counterexample :
    exDeployLog.txIndex = 0 ∧
    exConfigLog.txIndex = 1 ∧
    isConfigFor exPool exDeployLog = false ∧
    isConfigFor exPool exConfigLog = true ∧
    map_relative_component_balance exStore [exDeployLog, exConfigLog] =
      some [⟨7, 0, exT0, format_pool_id exPool, 100⟩] := by
  decide

/-- C3 (amended): for a `PoolDeployed` event on a pool present in the
Registry Store, the paired `PoolConfig` event is located by matching the
shared pool-address field among all logs of the block; if no matching
`PoolConfig` event exists anywhere in the block, this is escalated as a hard
failure for the block (`unwrap` panic — never silently ignored, never a
half-constructed result), and if one exists the deploy branch succeeds. -/
theorem missing_poolconfig_is_block_failure (store : Store) (blockLogs : List BLog)
    (log : BLog) (ev : PoolDeployedEv)
    (hmem : log ∈ blockLogs) (hev : log.ev = LogEv.poolDeployed ev)
    (hreg : (getLast store (pool_key (format_pool_id ev.pool))).isSome = true) :
    ((∀ l ∈ blockLogs, isConfigFor ev.pool l = false) →
      map_relative_component_balance store blockLogs = none) ∧
    ((∃ l ∈ blockLogs, isConfigFor ev.pool l = true) →
      (deployDeltas store blockLogs log).isSome = true) := by
  constructor
  · intro hnone
    have hfind : blockLogs.find? (isConfigFor ev.pool) = none :=
      List.find?_eq_none.mpr (by intro x hx; simp [hnone x hx])
    have hdd : deployDeltas store blockLogs log = none := by
      simp [deployDeltas, hev, hreg, hfind]
    exact mapRelativeAux_eq_none store blockLogs log hdd blockLogs hmem
  · intro hex
    have hfind : (blockLogs.find? (isConfigFor ev.pool)).isSome = true :=
      List.find?_isSome.mpr hex
    obtain ⟨cfg, hcfg⟩ := Option.isSome_iff_exists.mp hfind
    have hp := List.find?_some hcfg
    cases hcev : cfg.ev with
    | poolConfig p i0 i1 => simp [deployDeltas, hev, hreg, hcfg, hcev]
    | poolDeployed e => simp [isConfigFor, hcev] at hp
    | swap e => simp [isConfigFor, hcev] at hp
    | proxyCreated a b u t => simp [isConfigFor, hcev] at hp
    | other => simp [isConfigFor, hcev] at hp

/-- Witness for C3 (amended): with no `PoolConfig` anywhere the handler fails
hard, and with one present (even in another transaction) the branch
succeeds. -/
theorem missing_poolconfig_is_block_failure_witness :
    map_relative_component_balance exStore [exDeployLog] = none ∧
    (deployDeltas exStore [exDeployLog, exConfigLog] exDeployLog).isSome = true :=
  ⟨(missing_poolconfig_is_block_failure exStore [exDeployLog] exDeployLog exDeployEv
      (by decide) rfl (by decide)).1 (by decide),
   (missing_poolconfig_is_block_failure exStore [exDeployLog, exConfigLog] exDeployLog
      exDeployEv (by decide) rfl (by decide)).2 (by decide)⟩

/-- Helper: every delta emitted by the deploy branch has nonzero magnitude —
each of the two reserve pushes is guarded by a strict positivity test. -/
theorem deployDeltas_nonzero (store : Store) (blockLogs : List BLog) (log : BLog)
    (ds : List BalanceDelta) (h : deployDeltas store blockLogs log = some ds) :
    ∀ d ∈ ds, d.delta ≠ 0 := by
  intro d hd
  cases hev : log.ev with
  | poolDeployed ev =>
    simp only [deployDeltas, hev] at h
    split at h
    · split at h
      · cases h
      · split at h
        · obtain rfl : _ = ds := Option.some.inj h
          rcases List.mem_append.mp hd with h0 | h1
          · split at h0
            · obtain rfl : _ = d := (List.mem_singleton.mp h0).symm
              simp only []
              omega
            · cases h0
          · split at h1
            · obtain rfl : _ = d := (List.mem_singleton.mp h1).symm
              simp only []
              omega
            · cases h1
        · obtain rfl : ([] : List BalanceDelta) = ds := Option.some.inj h
          cases hd
    · obtain rfl : ([] : List BalanceDelta) = ds := Option.some.inj h
      cases hd
  | poolConfig p i0 i1 =>
    simp only [deployDeltas, hev] at h
    obtain rfl : ([] : List BalanceDelta) = ds := Option.some.inj h
    cases hd
  | swap ev =>
    simp only [deployDeltas, hev] at h
    obtain rfl : ([] : List BalanceDelta) = ds := Option.some.inj h
    cases hd
  | proxyCreated a b u t =>
    simp only [deployDeltas, hev] at h
    obtain rfl : ([] : List BalanceDelta) = ds := Option.some.inj h
    cases hd
  | other =>
    simp only [deployDeltas, hev] at h
    obtain rfl : ([] : List BalanceDelta) = ds := Option.some.inj h
    cases hd

/-- Helper: every delta emitted by the swap branch has nonzero magnitude —
each of the four amount pushes is guarded by a strict positivity test, the
outflows being emitted negated. -/
theorem swapDeltas_nonzero (store : Store) (log : BLog) (ds : List BalanceDelta)
    (h : swapDeltas store log = some ds) : ∀ d ∈ ds, d.delta ≠ 0 := by
  intro d hd
  cases hev : log.ev with
  | swap ev =>
    simp only [swapDeltas, hev] at h
    split at h
    · split at h
      · obtain rfl : ([] : List BalanceDelta) = ds := Option.some.inj h
        cases hd
      · split at h
        · obtain rfl : ([] : List BalanceDelta) = ds := Option.some.inj h
          cases hd
        · split at h
          · obtain rfl : _ = ds := Option.some.inj h
            rcases List.mem_append.mp hd with hd012 | h3
            · rcases List.mem_append.mp hd012 with hd01 | h2
              · rcases List.mem_append.mp hd01 with h0 | h1
                · split at h0
                  · obtain rfl : _ = d := (List.mem_singleton.mp h0).symm
                    simp only []
                    omega
                  · cases h0
                · split at h1
                  · obtain rfl : _ = d := (List.mem_singleton.mp h1).symm
                    simp only []
                    omega
                  · cases h1
              · split at h2
                · obtain rfl : _ = d := (List.mem_singleton.mp h2).symm
                  simp only []
                  omega
                · cases h2
            · split at h3
              · obtain rfl : _ = d := (List.mem_singleton.mp h3).symm
                simp only []
                omega
              · cases h3
          · cases h
    · obtain rfl : ([] : List BalanceDelta) = ds := Option.some.inj h
      cases hd
  | poolDeployed ev =>
    simp only [swapDeltas, hev] at h
    obtain rfl : ([] : List BalanceDelta) = ds := Option.some.inj h
    cases hd
  | poolConfig p i0 i1 =>
    simp only [swapDeltas, hev] at h
    obtain rfl : ([] : List BalanceDelta) = ds := Option.some.inj h
    cases hd
  | proxyCreated a b u t =>
    simp only [swapDeltas, hev] at h
    obtain rfl : ([] : List BalanceDelta) = ds := Option.some.inj h
    cases hd
  | other =>
    simp only [swapDeltas, hev] at h
    obtain rfl : ([] : List BalanceDelta) = ds := Option.some.inj h
    cases hd

/-- Helper: every delta in a successful run of the handler over any suffix of
the block's logs has nonzero magnitude. -/
theorem mapRelativeAux_nonzero (store : Store) (blockLogs : List BLog) :
    ∀ (cur : List BLog) (res : List BalanceDelta),
      mapRelativeAux store blockLogs cur = some res → ∀ d ∈ res, d.delta ≠ 0 := by
  intro cur
  induction cur with
  | nil =>
    intro res h d hd
    obtain rfl : ([] : List BalanceDelta) = res := Option.some.inj h
    cases hd
  | cons a rest ih =>
    intro res h d hd
    cases hdd : deployDeltas store blockLogs a with
    | none => simp [mapRelativeAux, hdd] at h
    | some dds =>
      cases hss : swapDeltas store a with
      | none => simp [mapRelativeAux, hdd, hss] at h
      | some sds =>
        cases hrr : mapRelativeAux store blockLogs rest with
        | none => simp [mapRelativeAux, hdd, hss, hrr] at h
        | some r =>
          simp only [mapRelativeAux, hdd, hss, hrr] at h
          obtain rfl : dds ++ sds ++ r = res := Option.some.inj h
          rcases List.mem_append.mp hd with h01 | h2
          · rcases List.mem_append.mp h01 with h0 | h1
            · exact deployDeltas_nonzero store blockLogs a dds hdd d h0
            · exact swapDeltas_nonzero store a sds hss d h1
          · exact ih r hrr d h2

/-- C7: a successful run of the balance-delta extractor never emits a delta
whose magnitude is exactly zero — zero initial reserves of a
`PoolDeployed`/`PoolConfig` pair and zero swap amounts emit nothing, so every
emitted delta is nonzero. -/
theorem no_zero_magnitude_deltas (store : Store) (blockLogs : List BLog)
    (res : List BalanceDelta)
    (h : map_relative_component_balance store blockLogs = some res) :
    ∀ d ∈ res, d.delta ≠ 0 :=
  mapRelativeAux_nonzero store blockLogs blockLogs res h

/-- Witness for C7: on the two-log block whose config carries reserves
`(100, 0)`, the sole emitted delta (the `+100` on asset0) is nonzero — the
zero reserve of asset1 emitted nothing at all. -/
theorem no_zero_magnitude_deltas_witness :
    (⟨7, 0, exT0, format_pool_id exPool, (100 : Int)⟩ : BalanceDelta).delta ≠ 0 :=
  no_zero_magnitude_deltas exStore [exDeployLog, exConfigLog]
    [⟨7, 0, exT0, format_pool_id exPool, (100 : Int)⟩] (by decide)
    ⟨7, 0, exT0, format_pool_id exPool, (100 : Int)⟩ (by decide)

/-- Helper: a built change-set keeps its builder's transaction index. -/
theorem buildTx_txIndex (b : TxBuilder) (c : TransactionChanges)
    (h : buildTx b = some c) : c.txIndex = b.txIndex := by
  unfold buildTx at h
  split at h
  · obtain rfl : _ = c := Option.some.inj h
    rfl
  · cases h

/-- Helper: a builder builds exactly when it has content. -/
theorem buildTx_isSome_iff (b : TxBuilder) :
    (buildTx b).isSome = true ↔ hasContent b = true := by
  unfold buildTx
  split <;> simp_all

/-- C8: when the per-transaction builders carry pairwise distinct transaction
indices (they are drained from a map keyed by index), the block output lists
the built change-sets in strictly ascending transaction-index order — hence
exactly one change-set per transaction — and a transaction index appears in
the output exactly when its builder has content. -/
theorem changes_sorted_and_unique (builders : List TxBuilder)
    (hnodup : (builders.map TxBuilder.txIndex).Nodup) :
    ((map_protocol_changes_output builders).map TransactionChanges.txIndex).Sorted
        (· < ·) ∧
    ∀ i : Nat,
      (∃ c ∈ map_protocol_changes_output builders, c.txIndex = i) ↔
        (∃ b ∈ builders, b.txIndex = i ∧ hasContent b = true) := by
  have hperm := List.perm_insertionSort
    (fun a b : TxBuilder => a.txIndex ≤ b.txIndex) builders
  have hsorted := List.sorted_insertionSort
    (fun a b : TxBuilder => a.txIndex ≤ b.txIndex) builders
  set s := List.insertionSort (fun a b : TxBuilder => a.txIndex ≤ b.txIndex) builders
    with hs
  have hnodup' : (s.map TxBuilder.txIndex).Nodup :=
    ((hperm.map TxBuilder.txIndex).symm).nodup hnodup
  have hpairNe : s.Pairwise (fun a b => a.txIndex ≠ b.txIndex) :=
    List.pairwise_map.mp hnodup'
  have hpairLt : s.Pairwise (fun a b => a.txIndex < b.txIndex) :=
    (hsorted.and hpairNe).imp (fun h => lt_of_le_of_ne h.1 h.2)
  constructor
  · refine List.pairwise_map.mpr ?_
    refine List.pairwise_filterMap.mpr ?_
    refine hpairLt.imp ?_
    intro a b hab x hx y hy
    rw [buildTx_txIndex a x hx, buildTx_txIndex b y hy]
    exact hab
  · intro i
    constructor
    · rintro ⟨c, hc, rfl⟩
      obtain ⟨b, hbs, hb⟩ := List.mem_filterMap.mp hc
      refine ⟨b, hperm.mem_iff.mp hbs, (buildTx_txIndex b c hb).symm, ?_⟩
      rw [← buildTx_isSome_iff]
      rw [hb]
      rfl
    · rintro ⟨b, hb, rfl, hcont⟩
      obtain ⟨c, hc⟩ := Option.isSome_iff_exists.mp ((buildTx_isSome_iff b).mpr hcont)
      exact ⟨c, List.mem_filterMap.mpr ⟨b, hperm.mem_iff.mpr hb, hc⟩,
        buildTx_txIndex b c hc⟩

/-- Witness for C8: two builders arriving out of index order, one of them
empty — the output holds the single contentful change-set, its index list
strictly sorted. -/
theorem changes_sorted_and_unique_witness :
    ((map_protocol_changes_output
        [⟨3, [], [], [], [], ["0x" ++ hexEncode exPool]⟩,
         ⟨1, [], [], [], [], []⟩]).map TransactionChanges.txIndex).Sorted (· < ·) :=
  (changes_sorted_and_unique
    [⟨3, [], [], [], [], ["0x" ++ hexEncode exPool]⟩,
     ⟨1, [], [], [], [], []⟩] (by decide)).1

end EulerSwap
